import Mathlib

set_option maxRecDepth 40000

/-
  Shallow embedding of src/ngx_http_pta_module.c (nginx PTA access-token module).

  Conventions of the embedding:
  * a byte buffer is a List Nat of byte values;
  * size_t arithmetic is modelled exactly, with subtraction wrapping mod 2 ^ 64
    (sizeSub below);
  * plaintext layout, as read by ngx_http_pta_decrypt (lines 571-574 of the C file):
    crc = big-endian value of bytes 0..3, deadline bytes = bytes 4..11,
    url = the buffer from offset 12 on, padding_val = the last byte;
  * AES-128-CBC decryption is performed by OpenSSL, outside this repository, so the
    orchestration functions take an oracle
    dec : Bool -> List Nat -> Option (List Nat)
    giving the plaintext of a ciphertext under the first (false) or second (true)
    key/iv pair; none models an EVP_* failure, which the C code sends to the fail
    label;
  * reads outside a buffer (undefined behaviour in C) are modelled by dedicated
    result values (UrlRes.patOob, UrlRes.uriOob) or by Option none.
-/

/-- Lower-casing of a byte as done by ngx_strncasecmp: bytes 65..90 get 32 added. -/
def lowc (c : Nat) : Nat := if 65 ≤ c ∧ c ≤ 90 then c + 32 else c

/-- size_t subtraction: (a - b) wrapping modulo 2 ^ 64. -/
def sizeSub (a b : Nat) : Nat := (a + (2 ^ 64 - b % 2 ^ 64)) % 2 ^ 64

/-- Big-endian value of a byte list, as produced by be32toh / be64toh on the raw bytes. -/
def beNat (l : List Nat) : Nat := l.foldl (fun acc b => acc * 256 + b) 0

/-- Big-endian encoding of a number on w bytes (most significant byte first). -/
def beBytes : Nat → Nat → List Nat
  | 0, _ => []
  | w + 1, n => beBytes w (n / 256) ++ [n % 256]

/-- One bit step of the reflected CRC-32 polynomial 0xedb88320. -/
def crc32_step (c : Nat) : Nat := if c % 2 = 1 then Nat.xor 0xedb88320 (c / 2) else c / 2

/-- Entry of the nginx ngx_crc32_table256 table for byte b. -/
def crc32_entry (b : Nat) : Nat := crc32_step^[8] b

/-- The byte loop of ngx_crc32_long: crc = table[(crc ^ byte) & 0xff] ^ (crc >> 8). -/
def crc32_fold : Nat → List Nat → Nat
  | crc, [] => crc
  | crc, b :: rest => crc32_fold (Nat.xor (crc32_entry (Nat.xor crc b % 256)) (crc / 256)) rest

/-- ngx_crc32_long: standard CRC-32, initial value 0xffffffff, final xor 0xffffffff. -/
def ngx_crc32_long (l : List Nat) : Nat := Nat.xor (crc32_fold 0xffffffff l) 0xffffffff

/-- padding_val as read by ngx_http_pta_decrypt line 574: the last plaintext byte
    (out[encrypt_data_len - 1]). -/
def padding_val (p : List Nat) : Nat := p.getLastD 0

/-- url_len as computed by ngx_http_pta_check_crc lines 627-629:
    encrypt_data_len - sizeof crc (4) - sizeof deadline (8) - padding_val,
    in size_t arithmetic. -/
def url_len (p : List Nat) : Nat := sizeSub p.length (12 + padding_val p)

/-- ngx_http_pta_check_crc (lines 614-649): 0 means the payload is accepted,
    1 means it is rejected.  The crc field is the big-endian value of plaintext
    bytes 0..3; the crc is recomputed over the 8 deadline bytes followed by the
    url_len url bytes. -/
def ngx_http_pta_check_crc (p : List Nat) : Nat :=
  if padding_val p < 1 ∨ 16 < padding_val p then 1
  else if 8192 < url_len p then 1
  else if ngx_crc32_long ((p.drop 4).take 8 ++ (p.drop 12).take (url_len p)) ≠ beNat (p.take 4)
    then 1
  else 0

/-- Number of bytes the two memcpy calls of ngx_http_pta_check_crc (lines 636-639)
    write into the 8192-byte stack buffer raw: 8 deadline bytes at raw[0..8) and
    url_len url bytes at raw[8..8+url_len). -/
def crcScratchWrite (p : List Nat) : Nat := 8 + url_len p

/-- A plaintext exhibiting the scratch-buffer arithmetic at its boundary:
    length 8208 (a multiple of 16), last byte (padding_val) 4, hence url_len 8192. -/
def pBug : List Nat := List.replicate 8207 0 ++ [4]

/-- Two-complement interpretation of a 64-bit value, as done by assigning the
    be64toh result to the signed time_t deadline. -/
def toSigned64 (n : Nat) : Int := if n < 2 ^ 63 then (n : Int) else (n : Int) - 2 ^ 64

/-- ngx_http_pta_check_deadline (lines 651-665): deadline = be64toh of the 8
    deadline bytes (plaintext bytes 4..11), expired (result 1) exactly when
    now > deadline. -/
def ngx_http_pta_check_deadline (now : Int) (p : List Nat) : Nat :=
  if now > toSigned64 (beNat ((p.drop 4).take 8)) then 1 else 0

/- ------------------------------------------------------------------ -/
/- Helper lemmas about size_t subtraction and the integrity check.     -/
/- ------------------------------------------------------------------ -/

theorem sizeSub_of_le {a b : Nat} (hb : b ≤ a) (ha : a < 2 ^ 64) : sizeSub a b = a - b := by
  unfold sizeSub
  omega

theorem sizeSub_of_gt {a b : Nat} (hb : a < b) (hb2 : b < 2 ^ 64) :
    sizeSub a b = a + (2 ^ 64 - b) := by
  unfold sizeSub
  omega

/-- Characterisation of acceptance by ngx_http_pta_check_crc. -/
theorem check_crc_eq_zero_iff (p : List Nat) (hp : p.length < 2 ^ 64) :
    ngx_http_pta_check_crc p = 0 ↔
      (1 ≤ padding_val p ∧ padding_val p ≤ 16 ∧ 12 + padding_val p ≤ p.length ∧
        p.length - (12 + padding_val p) ≤ 8192 ∧
        ngx_crc32_long ((p.drop 4).take 8 ++ (p.drop 12).take (p.length - (12 + padding_val p))) =
          beNat (p.take 4)) := by
  unfold ngx_http_pta_check_crc
  by_cases h1 : padding_val p < 1 ∨ 16 < padding_val p
  · simp only [if_pos h1]
    constructor
    · intro h; exact absurd h one_ne_zero
    · rintro ⟨h2, h3, -⟩; omega
  · simp only [if_neg h1]
    push_neg at h1
    have hb : 12 + padding_val p < 2 ^ 64 := by omega
    by_cases h2 : 12 + padding_val p ≤ p.length
    · have hu : url_len p = p.length - (12 + padding_val p) := sizeSub_of_le h2 hp
      rw [hu]
      by_cases h3 : 8192 < p.length - (12 + padding_val p)
      · simp only [if_pos h3]
        constructor
        · intro h; exact absurd h one_ne_zero
        · rintro ⟨-, -, -, h4, -⟩; omega
      · simp only [if_neg h3]
        by_cases h4 : ngx_crc32_long ((p.drop 4).take 8 ++
            (p.drop 12).take (p.length - (12 + padding_val p))) = beNat (p.take 4)
        · rw [if_neg (not_not_intro h4)]
          constructor
          · intro _; exact ⟨h1.1, h1.2, h2, by omega, h4⟩
          · intro _; rfl
        · rw [if_pos h4]
          constructor
          · intro h; exact absurd h one_ne_zero
          · rintro ⟨-, -, -, -, h5⟩; exact absurd h5 h4
    · have hu : url_len p = p.length + (2 ^ 64 - (12 + padding_val p)) := by
        exact sizeSub_of_gt (by omega) hb
      have h3 : 8192 < url_len p := by
        rw [hu]; omega
      simp only [if_pos h3]
      constructor
      · intro h; exact absurd h one_ne_zero
      · rintro ⟨-, -, h4, -⟩; omega

/-- C1: the integrity check accepts a decrypted plaintext exactly when the final
    byte padding_val is in [1,16], url_len = len - 4 - 8 - padding_val is
    non-negative and at most 8192, and the CRC-32 of the 8 deadline bytes followed
    by the url_len url bytes equals the first 4 plaintext bytes read as a
    big-endian 32-bit value; any failing condition rejects the payload. -/
theorem C1_payload_integrity_iff (p : List Nat) (hp : p.length < 2 ^ 64) :
    ngx_http_pta_check_crc p = 0 ↔
      (1 ≤ padding_val p ∧ padding_val p ≤ 16 ∧ 12 + padding_val p ≤ p.length ∧
        p.length - (12 + padding_val p) ≤ 8192 ∧
        ngx_crc32_long ((p.drop 4).take 8 ++ (p.drop 12).take (p.length - (12 + padding_val p))) =
          beNat (p.take 4)) :=
  check_crc_eq_zero_iff p hp

/-- A concrete well-formed payload: crc over the 8 zero deadline bytes and an
    empty url, followed by 4 padding bytes of value 4 (total length 16). -/
def goodPayload : List Nat :=
  beBytes 4 (ngx_crc32_long [0, 0, 0, 0, 0, 0, 0, 0]) ++ [0, 0, 0, 0, 0, 0, 0, 0] ++ [4, 4, 4, 4]

theorem C1_payload_integrity_iff_witness :
    goodPayload.length < 2 ^ 64 ∧ ngx_http_pta_check_crc goodPayload = 0 :=
  ⟨by decide, (C1_payload_integrity_iff goodPayload (by decide)).mpr (by decide)⟩

/-- C2: the 8192 bound on url_len does NOT keep the checksum recomputation inside
    the 8192-byte scratch buffer.  At pBug (length 8208, padding_val 4) the
    padding check and the length check of ngx_http_pta_check_crc both pass
    (url_len = 8192 is not greater than 8192), yet the two memcpy calls write
    8 + url_len = 8200 bytes into the 8192-byte buffer raw. -/
theorem C2_scratch_overflow :
    1 ≤ padding_val pBug ∧ padding_val pBug ≤ 16 ∧ ¬ 8192 < url_len pBug ∧
      8192 < crcScratchWrite pBug := by
  have hpad : padding_val pBug = 4 := by
    unfold padding_val pBug
    rw [List.getLastD_concat]
  have hlen : pBug.length = 8208 := by
    unfold pBug
    rw [List.length_append, List.length_replicate]
    rfl
  have hurl : url_len pBug = 8192 := by
    unfold url_len
    rw [hpad, hlen]
    unfold sizeSub
    norm_num
  refine ⟨by omega, by omega, by omega, ?_⟩
  unfold crcScratchWrite
  omega

/- ------------------------------------------------------------------ -/
/- Deadline check.                                                     -/
/- ------------------------------------------------------------------ -/

theorem beBytes_length (w n : Nat) : (beBytes w n).length = w := by
  induction w generalizing n with
  | zero => rfl
  | succ w ih => simp [beBytes, ih]

theorem beNat_append_singleton (l : List Nat) (b : Nat) :
    beNat (l ++ [b]) = beNat l * 256 + b := by
  unfold beNat
  rw [List.foldl_append]
  rfl

theorem beNat_beBytes (w n : Nat) (h : n < 256 ^ w) : beNat (beBytes w n) = n := by
  induction w generalizing n with
  | zero =>
    interval_cases n
    rfl
  | succ w ih =>
    have hdiv : n / 256 < 256 ^ w := by
      apply Nat.div_lt_of_lt_mul
      calc n < 256 ^ (w + 1) := h
        _ = 256 * 256 ^ w := by ring
    rw [beBytes, beNat_append_singleton, ih (n / 256) hdiv]
    omega

/-- C5: the deadline check reads the payload deadline bytes (plaintext bytes
    4..11) as a big-endian 64-bit timestamp and reports expired (result 1)
    exactly when now > deadline; deadline = now is still valid, and
    deadline = now - 1 is expired. -/
theorem C5_deadline_inclusive (c4 rest : List Nat) (dl : Nat) (now : Int)
    (h4 : c4.length = 4) (hdl : dl < 2 ^ 63) :
    (ngx_http_pta_check_deadline now (c4 ++ (beBytes 8 dl ++ rest)) = 1 ↔ (dl : Int) < now) ∧
    ngx_http_pta_check_deadline (dl : Int) (c4 ++ (beBytes 8 dl ++ rest)) = 0 ∧
    ngx_http_pta_check_deadline ((dl : Int) + 1) (c4 ++ (beBytes 8 dl ++ rest)) = 1 := by
  have hb : ((c4 ++ (beBytes 8 dl ++ rest)).drop 4).take 8 = beBytes 8 dl := by
    rw [List.drop_left' h4, List.take_left' (beBytes_length 8 dl)]
  have hv : beNat (beBytes 8 dl) = dl := by
    apply beNat_beBytes
    calc dl < 2 ^ 63 := hdl
      _ < 256 ^ 8 := by norm_num
  have hs : toSigned64 (beNat (((c4 ++ (beBytes 8 dl ++ rest)).drop 4).take 8)) = (dl : Int) := by
    rw [hb, hv]
    unfold toSigned64
    rw [if_pos hdl]
  unfold ngx_http_pta_check_deadline
  rw [hs]
  refine ⟨?_, ?_, ?_⟩
  · constructor
    · intro h
      by_contra hc
      rw [if_neg (by omega)] at h
      exact absurd h.symm one_ne_zero
    · intro h; rw [if_pos (by omega)]
  · rw [if_neg (by omega)]
  · rw [if_pos (by omega)]

theorem C5_deadline_inclusive_witness :
    ([0, 0, 0, 0] : List Nat).length = 4 ∧ (1000 : Nat) < 2 ^ 63 ∧
    ((ngx_http_pta_check_deadline 500 ([0, 0, 0, 0] ++ (beBytes 8 1000 ++ [])) = 1 ↔
        ((1000 : Nat) : Int) < 500) ∧
      ngx_http_pta_check_deadline ((1000 : Nat) : Int) ([0, 0, 0, 0] ++ (beBytes 8 1000 ++ [])) = 0 ∧
      ngx_http_pta_check_deadline (((1000 : Nat) : Int) + 1)
        ([0, 0, 0, 0] ++ (beBytes 8 1000 ++ [])) = 1) :=
  ⟨by decide, by norm_num,
    C5_deadline_inclusive [0, 0, 0, 0] [] 1000 500 (by decide) (by norm_num)⟩

/- ------------------------------------------------------------------ -/
/- URL matcher: ngx_http_pta_check_url / ngx_http_pta_check_wildcard_url. -/
/- ------------------------------------------------------------------ -/

/-- Result of the URL matching functions.  ret c is the returned ngx_int_t
    (0 match, nonzero mismatch); uriOob and patOob mark a read outside the
    request uri buffer, resp. outside the decrypted pattern buffer (undefined
    behaviour in the C code). -/
inductive UrlRes where
  | ret (code : Nat)
  | uriOob
  | patOob
deriving DecidableEq

/-- The scan of ngx_http_pta_check_wildcard_url lines 673-676: the distance to
    the first byte equal to the sentinel padding_val, none when the scan would
    run past the end of the buffer. -/
def sentinelScan (pv : Nat) : List Nat → Option Nat
  | [] => none
  | c :: rest => if c = pv then some 0 else Option.map (· + 1) (sentinelScan pv rest)

/-- ngx_strncmp (strncmp) equality on n bytes: compares byte by byte, stops with
    success at a matching 0 byte.  Callers always pass lists holding at least n
    elements; the remaining cases are never reached. -/
def strncmpEq : Nat → List Nat → List Nat → Bool
  | 0, _, _ => true
  | n + 1, a :: t1, b :: t2 => if a = b then (if a = 0 then true else strncmpEq n t1 t2) else false
  | _ + 1, _, _ => true

/-- ngx_http_pta_check_wildcard_url (lines 667-691).  suffixPart is the pattern
    buffer from just after the asterisk (beg = url + wdx + 1) to the end of the
    decrypted buffer; idx is the number of uri bytes already matched.
    The uri length subtraction is size_t arithmetic. -/
def ngx_http_pta_check_wildcard_url (uri suffixPart : List Nat) (pv idx : Nat) : UrlRes :=
  match sentinelScan pv suffixPart with
  | none => UrlRes.patOob
  | some len =>
    if len = 0 then UrlRes.ret 0
    else if sizeSub uri.length idx < len then UrlRes.ret 1
    else if uri.length < len then UrlRes.uriOob
    else if strncmpEq len (uri.drop (uri.length - len)) (suffixPart.take len) then UrlRes.ret 0
    else UrlRes.ret 1

/-- The while loop of ngx_http_pta_check_url lines 705-726, on the pattern
    buffer remainder.  ast is the escape flag; an unescaped asterisk with
    ast still 0 delegates to the wildcard matcher; the backslash-asterisk
    pair is consumed as a literal asterisk match and sets ast; the final
    idx = uri.length test is the check of line 728.  The cases are split on
    whether one or at least two pattern bytes remain, because the escape test
    reads url[wdx] and url[wdx + 1]: a backslash as the very last buffer byte
    makes the C code read past the buffer (patOob). -/
def ngx_http_pta_check_url_loop (uri : List Nat) (pv : Nat) : List Nat → Nat → Bool → UrlRes
  | [], _, _ => UrlRes.patOob
  | [c], idx, ast =>
    if c = pv then (if idx = uri.length then UrlRes.ret 0 else UrlRes.ret 1)
    else if c = 92 then UrlRes.patOob
    else if ast = false ∧ c = 42 then
      ngx_http_pta_check_wildcard_url uri [] pv idx
    else
      match uri.get? idx with
      | none => UrlRes.uriOob
      | some u =>
        if u = c then ngx_http_pta_check_url_loop uri pv [] (idx + 1) ast
        else UrlRes.ret 1
  | c :: d :: rest2, idx, ast =>
    if c = pv then (if idx = uri.length then UrlRes.ret 0 else UrlRes.ret 1)
    else if c = 92 then
      if d = 42 then
        match uri.get? idx with
        | none => UrlRes.uriOob
        | some u =>
          if u = 42 then ngx_http_pta_check_url_loop uri pv rest2 (idx + 1) true
          else UrlRes.ret 1
      else
        match uri.get? idx with
        | none => UrlRes.uriOob
        | some u =>
          if u = 92 then ngx_http_pta_check_url_loop uri pv (d :: rest2) (idx + 1) ast
          else UrlRes.ret 1
    else if ast = false ∧ c = 42 then
      ngx_http_pta_check_wildcard_url uri (d :: rest2) pv idx
    else
      match uri.get? idx with
      | none => UrlRes.uriOob
      | some u =>
        if u = c then ngx_http_pta_check_url_loop uri pv (d :: rest2) (idx + 1) ast
        else UrlRes.ret 1

/-- ngx_http_pta_check_url (lines 693-734): re-checks padding_val in [1,16]
    (lines 699-703), then runs the matching loop with idx = wdx = 0, ast = 0.
    url is the decrypted buffer from offset 12 on, uri the request path. -/
def ngx_http_pta_check_url (url : List Nat) (pv : Nat) (uri : List Nat) : UrlRes :=
  if pv < 1 ∨ 16 < pv then UrlRes.ret 1
  else ngx_http_pta_check_url_loop uri pv url 0 false

theorem sentinelScan_lt {pv : Nat} :
    ∀ {l : List Nat} {k : Nat}, sentinelScan pv l = some k → k < l.length := by
  intro l
  induction l with
  | nil => intro k h; simp [sentinelScan] at h
  | cons c rest ih =>
    intro k h
    by_cases hc : c = pv
    · simp only [sentinelScan, if_pos hc, Option.some.injEq] at h
      simp [← h]
    · simp only [sentinelScan, if_neg hc, Option.map_eq_some'] at h
      obtain ⟨m, hm, hk⟩ := h
      have := ih hm
      simp only [List.length_cons]
      omega

theorem sentinelScan_isSome_of_mem {pv : Nat} :
    ∀ {l : List Nat}, pv ∈ l → ∃ k, sentinelScan pv l = some k := by
  intro l
  induction l with
  | nil => intro h; simp at h
  | cons c rest ih =>
    intro h
    by_cases hc : c = pv
    · exact ⟨0, by simp [sentinelScan, hc]⟩
    · have hr : pv ∈ rest := by
        rcases List.mem_cons.mp h with h1 | h1
        · exact absurd h1.symm hc
        · exact h1
      obtain ⟨k, hk⟩ := ih hr
      exact ⟨k + 1, by simp [sentinelScan, hc, hk]⟩

theorem strncmpEq_true_iff :
    ∀ (n : Nat) (l1 l2 : List Nat), l1.length = n → l2.length = n → (0 : Nat) ∉ l2 →
      (strncmpEq n l1 l2 = true ↔ l1 = l2) := by
  intro n
  induction n with
  | zero =>
    intro l1 l2 h1 h2 _
    rw [List.length_eq_zero] at h1 h2
    subst h1; subst h2
    simp [strncmpEq]
  | succ n ih =>
    intro l1 l2 h1 h2 hz
    obtain ⟨a, t1, rfl⟩ := List.exists_cons_of_length_eq_add_one h1
    obtain ⟨b, t2, rfl⟩ := List.exists_cons_of_length_eq_add_one h2
    have hb : b ≠ 0 := by
      intro hb0
      exact hz (by simp [hb0])
    have hz2 : (0 : Nat) ∉ t2 := by
      intro hmem
      exact hz (List.mem_cons_of_mem b hmem)
    by_cases hab : a = b
    · subst hab
      have ha : a ≠ 0 := hb
      have hstep : strncmpEq (n + 1) (a :: t1) (a :: t2) = strncmpEq n t1 t2 := by
        simp [strncmpEq, ha]
      rw [hstep, ih t1 t2 (by simpa using h1) (by simpa using h2) hz2]
      simp
    · simp only [strncmpEq, if_neg hab]
      constructor
      · intro h; exact absurd h (by simp)
      · intro h
        exact absurd (List.cons_eq_cons.mp h).1 hab

/-- C3 (amended): with the suffix sa.take len delimited by the sentinel, the
    wildcard matcher accepts exactly when the suffix is empty, or the path has at
    least len bytes beyond the already-matched prefix and its last len bytes equal
    the suffix byte for byte -- the latter under the proviso that the suffix
    contains no 0 byte, because the comparison is C strncmp, which stops with
    success at a matching 0 byte.  The concrete conjuncts check the examples of
    the claim: /videos/* matches /videos/abc123, /a/*ext matches /a/foo.ext and
    not /a/foo.exd. -/
theorem C3_wildcard_suffix :
    (∀ (uri sa : List Nat) (pv idx len : Nat),
        sentinelScan pv sa = some len → uri.length < 2 ^ 64 → idx ≤ uri.length →
        (0 : Nat) ∉ sa.take len →
        (ngx_http_pta_check_wildcard_url uri sa pv idx = UrlRes.ret 0 ↔
          (len = 0 ∨ (len ≤ uri.length - idx ∧ uri.drop (uri.length - len) = sa.take len)))) ∧
    ngx_http_pta_check_url [47, 118, 105, 100, 101, 111, 115, 47, 42, 7] 7
      [47, 118, 105, 100, 101, 111, 115, 47, 97, 98, 99, 49, 50, 51] = UrlRes.ret 0 ∧
    ngx_http_pta_check_url [47, 97, 47, 42, 101, 120, 116, 3] 3
      [47, 97, 47, 102, 111, 111, 46, 101, 120, 116] = UrlRes.ret 0 ∧
    ngx_http_pta_check_url [47, 97, 47, 42, 101, 120, 116, 3] 3
      [47, 97, 47, 102, 111, 111, 46, 101, 120, 100] = UrlRes.ret 1 := by
  refine ⟨?_, by decide, by decide, by decide⟩
  intro uri sa pv idx len hscan huri hidx hz
  unfold ngx_http_pta_check_wildcard_url
  rw [hscan]
  by_cases h0 : len = 0
  · simp [h0]
  · simp only [if_neg h0]
    rw [sizeSub_of_le hidx huri]
    by_cases h1 : uri.length - idx < len
    · rw [if_pos h1]
      constructor
      · intro h; exact absurd h (by simp)
      · rintro (h | ⟨h, -⟩)
        · exact absurd h h0
        · omega
    · rw [if_neg h1]
      have hlen : len ≤ uri.length := by omega
      rw [if_neg (by omega : ¬ uri.length < len)]
      have hsa : len ≤ sa.length := (sentinelScan_lt hscan).le
      have hd : (uri.drop (uri.length - len)).length = len := by
        rw [List.length_drop]; omega
      have ht : (sa.take len).length = len := by
        rw [List.length_take]; omega
      by_cases h2 : uri.drop (uri.length - len) = sa.take len
      · rw [if_pos ((strncmpEq_true_iff len _ _ hd ht hz).mpr h2)]
        constructor
        · intro _; exact Or.inr ⟨by omega, h2⟩
        · intro _; rfl
      · rw [if_neg (fun hb => h2 ((strncmpEq_true_iff len _ _ hd ht hz).mp hb))]
        constructor
        · intro h; exact absurd h (by simp)
        · rintro (h | ⟨-, h⟩)
          · exact absurd h h0
          · exact absurd h h2

theorem C3_wildcard_suffix_witness :
    sentinelScan 5 [98, 99, 5] = some 2 ∧
    (ngx_http_pta_check_wildcard_url [97, 98, 99] [98, 99, 5] 5 0 = UrlRes.ret 0 ↔
      ((2 : Nat) = 0 ∨ ((2 : Nat) ≤ [97, 98, 99].length - 0 ∧
        List.drop ([97, 98, 99].length - 2) [97, 98, 99] = List.take 2 [98, 99, 5]))) :=
  ⟨by decide,
    C3_wildcard_suffix.1 [97, 98, 99] [98, 99, 5] 5 0 2 (by decide) (by decide) (by decide)
      (by decide)⟩

/-- C3 counterexample to the claim as stated: pattern bytes asterisk, 0, 97 with
    sentinel 1 give the nonempty suffix [0, 97]; the path [0, 98] has exactly 2
    bytes and its last 2 bytes [0, 98] differ from the suffix [0, 97] in the last
    byte, yet the matcher accepts, because ngx_strncmp stops successfully at the
    matching 0 byte in the first position. -/
theorem C3_strncmp_counterexample :
    ngx_http_pta_check_url [42, 0, 97, 1] 1 [0, 98] = UrlRes.ret 0 ∧
    sentinelScan 1 [0, 97, 1] = some 2 ∧
    List.drop ([0, 98].length - 2) [0, 98] ≠ List.take 2 [0, 97, 1] := by
  refine ⟨by decide, by decide, by decide⟩

/- ------------------------------------------------------------------ -/
/- Escape flag: matching with wildcard interpretation disabled.        -/
/- ------------------------------------------------------------------ -/

/-- The matching loop of ngx_http_pta_check_url with the ast escape flag already
    set: identical to ngx_http_pta_check_url_loop except that the unescaped
    asterisk branch (which requires ast == 0) can no longer fire, so every
    asterisk is matched as a literal byte; backslash-asterisk pairs are still
    collapsed to a literal asterisk. -/
def litLoop (uri : List Nat) (pv : Nat) : List Nat → Nat → UrlRes
  | [], _ => UrlRes.patOob
  | [c], idx =>
    if c = pv then (if idx = uri.length then UrlRes.ret 0 else UrlRes.ret 1)
    else if c = 92 then UrlRes.patOob
    else
      match uri.get? idx with
      | none => UrlRes.uriOob
      | some u => if u = c then litLoop uri pv [] (idx + 1) else UrlRes.ret 1
  | c :: d :: rest2, idx =>
    if c = pv then (if idx = uri.length then UrlRes.ret 0 else UrlRes.ret 1)
    else if c = 92 then
      if d = 42 then
        match uri.get? idx with
        | none => UrlRes.uriOob
        | some u => if u = 42 then litLoop uri pv rest2 (idx + 1) else UrlRes.ret 1
      else
        match uri.get? idx with
        | none => UrlRes.uriOob
        | some u => if u = 92 then litLoop uri pv (d :: rest2) (idx + 1) else UrlRes.ret 1
    else
      match uri.get? idx with
      | none => UrlRes.uriOob
      | some u => if u = c then litLoop uri pv (d :: rest2) (idx + 1) else UrlRes.ret 1

/-- The byte sequence a path remainder must equal for the literal-mode loop to
    accept: the pattern up to the sentinel with every backslash-asterisk pair
    collapsed to an asterisk; none when the loop cannot accept (sentinel missing
    or reached only past the end of the buffer). -/
def litPattern (pv : Nat) : List Nat → Option (List Nat)
  | [] => none
  | [c] => if c = pv then some [] else none
  | c :: d :: rest2 =>
    if c = pv then some []
    else if c = 92 then
      if d = 42 then Option.map (fun w => 42 :: w) (litPattern pv rest2)
      else Option.map (fun w => 92 :: w) (litPattern pv (d :: rest2))
    else Option.map (fun w => c :: w) (litPattern pv (d :: rest2))

/-- With the escape flag set, the matching loop is exactly the literal-mode loop:
    wildcard interpretation stays disabled for the whole remainder of the pattern. -/
theorem loop_ast_true_eq_lit (uri : List Nat) (pv : Nat) :
    ∀ (n : Nat) (pat : List Nat), pat.length ≤ n → ∀ idx,
      ngx_http_pta_check_url_loop uri pv pat idx true = litLoop uri pv pat idx := by
  intro n
  induction n with
  | zero =>
    intro pat h idx
    have hnil : pat = [] := List.length_eq_zero.mp (by omega)
    subst hnil
    rfl
  | succ n ih =>
    intro pat h idx
    match pat with
    | [] => rfl
    | [c] =>
      by_cases hcpv : c = pv
      · simp [ngx_http_pta_check_url_loop, litLoop, hcpv]
      · by_cases hc92 : c = 92
        · simp [ngx_http_pta_check_url_loop, litLoop, hcpv, hc92]
        · simp only [ngx_http_pta_check_url_loop, litLoop, if_neg hcpv, if_neg hc92]
          rw [if_neg (by simp)]
    | c :: d :: rest2 =>
      by_cases hcpv : c = pv
      · simp [ngx_http_pta_check_url_loop, litLoop, hcpv]
      · by_cases hc92 : c = 92
        · simp only [ngx_http_pta_check_url_loop, litLoop, if_neg hcpv, if_pos hc92]
          by_cases hd : d = 42
          · simp only [if_pos hd]
            cases huri : uri.get? idx with
            | none => rfl
            | some u =>
              by_cases hu : u = 42
              · simp only [if_pos hu]
                exact ih rest2 (by simp at h ⊢; omega) (idx + 1)
              · simp [hu]
          · simp only [if_neg hd]
            cases huri : uri.get? idx with
            | none => rfl
            | some u =>
              by_cases hu : u = 92
              · simp only [if_pos hu]
                exact ih (d :: rest2) (by simp at h ⊢; omega) (idx + 1)
              · simp [hu]
        · simp only [ngx_http_pta_check_url_loop, litLoop, if_neg hcpv, if_neg hc92]
          rw [if_neg (by simp)]
          cases huri : uri.get? idx with
          | none => rfl
          | some u =>
            by_cases hu : u = c
            · simp only [if_pos hu]
              exact ih (d :: rest2) (by simp at h ⊢; omega) (idx + 1)
            · simp [hu]

theorem lit_exit_char (uri : List Nat) (idx : Nat) (hidx : idx ≤ uri.length) :
    ((if idx = uri.length then UrlRes.ret 0 else UrlRes.ret 1) = UrlRes.ret 0 ↔
      uri.drop idx = []) := by
  rw [List.drop_eq_nil_iff]
  by_cases h : idx = uri.length
  · simp [h]
  · rw [if_neg h]
    constructor
    · intro hr; exact absurd hr (by simp)
    · intro hle; exact absurd (by omega) h

theorem lit_byte_step (uri : List Nat) (pv e : Nat) (pat2 w2 : List Nat)
    (hrec : ∀ idx2, idx2 ≤ uri.length →
      (litLoop uri pv pat2 idx2 = UrlRes.ret 0 ↔ uri.drop idx2 = w2))
    (idx : Nat) (hidx : idx ≤ uri.length) :
    ((match uri.get? idx with
      | none => UrlRes.uriOob
      | some u => if u = e then litLoop uri pv pat2 (idx + 1) else UrlRes.ret 1) = UrlRes.ret 0 ↔
      uri.drop idx = e :: w2) := by
  cases huri : uri.get? idx with
  | none =>
    have hge : uri.length ≤ idx := List.get?_eq_none.mp huri
    have hdz : uri.drop idx = [] := List.drop_eq_nil_of_le hge
    rw [hdz]
    simp
  | some u =>
    obtain ⟨hlt, hget⟩ := List.get?_eq_some.mp huri
    have hdropc : uri.drop idx = u :: uri.drop (idx + 1) := by
      rw [List.drop_eq_get_cons hlt, hget]
    rw [hdropc]
    dsimp only
    by_cases hu : u = e
    · subst hu
      rw [if_pos rfl, hrec (idx + 1) (by omega)]
      simp
    · rw [if_neg hu]
      constructor
      · intro hr; exact absurd hr (by simp)
      · intro hd2
        exact absurd (List.cons_eq_cons.mp hd2).1 hu

/-- The literal-mode loop accepts exactly the paths whose remainder equals the
    collapsed pattern. -/
theorem litLoop_char (uri : List Nat) (pv : Nat) :
    ∀ (n : Nat) (pat : List Nat), pat.length ≤ n → ∀ w, litPattern pv pat = some w →
      ∀ idx, idx ≤ uri.length →
      (litLoop uri pv pat idx = UrlRes.ret 0 ↔ uri.drop idx = w) := by
  intro n
  induction n with
  | zero =>
    intro pat h w hw idx hidx
    have hnil : pat = [] := List.length_eq_zero.mp (by omega)
    subst hnil
    simp [litPattern] at hw
  | succ n ih =>
    intro pat h w hw idx hidx
    match pat with
    | [] => simp [litPattern] at hw
    | [c] =>
      by_cases hcpv : c = pv
      · simp only [litPattern, if_pos hcpv, Option.some.injEq] at hw
        subst hw
        simp only [litLoop, if_pos hcpv]
        exact lit_exit_char uri idx hidx
      · simp only [litPattern, if_neg hcpv] at hw
        exact absurd hw (by simp)
    | c :: d :: rest2 =>
      by_cases hcpv : c = pv
      · simp only [litPattern, if_pos hcpv, Option.some.injEq] at hw
        subst hw
        simp only [litLoop, if_pos hcpv]
        exact lit_exit_char uri idx hidx
      · by_cases hc92 : c = 92
        · by_cases hd42 : d = 42
          · simp only [litPattern, if_neg hcpv, if_pos hc92, if_pos hd42,
              Option.map_eq_some'] at hw
            obtain ⟨w2, hw2, hwe⟩ := hw
            subst hwe
            simp only [litLoop, if_neg hcpv, if_pos hc92, if_pos hd42]
            exact lit_byte_step uri pv 42 rest2 w2
              (fun idx2 h2 => ih rest2 (by simp at h ⊢; omega) w2 hw2 idx2 h2) idx hidx
          · simp only [litPattern, if_neg hcpv, if_pos hc92, if_neg hd42,
              Option.map_eq_some'] at hw
            obtain ⟨w2, hw2, hwe⟩ := hw
            subst hwe
            simp only [litLoop, if_neg hcpv, if_pos hc92, if_neg hd42]
            exact lit_byte_step uri pv 92 (d :: rest2) w2
              (fun idx2 h2 => ih (d :: rest2) (by simp at h ⊢; omega) w2 hw2 idx2 h2) idx hidx
        · simp only [litPattern, if_neg hcpv, if_neg hc92, Option.map_eq_some'] at hw
          obtain ⟨w2, hw2, hwe⟩ := hw
          subst hwe
          simp only [litLoop, if_neg hcpv, if_neg hc92]
          exact lit_byte_step uri pv c (d :: rest2) w2
            (fun idx2 h2 => ih (d :: rest2) (by simp at h ⊢; omega) w2 hw2 idx2 h2) idx hidx

theorem loop_escape_step (uri : List Nat) (pv : Nat) (rest : List Nat) (idx : Nat) (ast : Bool)
    (hpv : pv ≠ 92) :
    ngx_http_pta_check_url_loop uri pv (92 :: 42 :: rest) idx ast =
      (match uri.get? idx with
        | none => UrlRes.uriOob
        | some u =>
          if u = 42 then ngx_http_pta_check_url_loop uri pv rest (idx + 1) true
          else UrlRes.ret 1) := by
  simp only [ngx_http_pta_check_url_loop]
  rw [if_neg (fun h => hpv h.symm)]
  simp

theorem loop_escape_char (uri : List Nat) (pv : Nat) (rest : List Nat) (ast : Bool) (w : List Nat)
    (hpv : pv ≠ 92)
    (hrec : ∀ idx2, idx2 ≤ uri.length →
      (ngx_http_pta_check_url_loop uri pv rest idx2 true = UrlRes.ret 0 ↔ uri.drop idx2 = w)) :
    ∀ idx, idx ≤ uri.length →
      (ngx_http_pta_check_url_loop uri pv (92 :: 42 :: rest) idx ast = UrlRes.ret 0 ↔
        uri.drop idx = 42 :: w) := by
  intro idx hidx
  rw [loop_escape_step uri pv rest idx ast hpv]
  cases huri : uri.get? idx with
  | none =>
    have hge : uri.length ≤ idx := List.get?_eq_none.mp huri
    rw [List.drop_eq_nil_of_le hge]
    simp
  | some u =>
    obtain ⟨hlt, hget⟩ := List.get?_eq_some.mp huri
    have hdropc : uri.drop idx = u :: uri.drop (idx + 1) := by
      rw [List.drop_eq_get_cons hlt, hget]
    rw [hdropc]
    dsimp only
    by_cases hu : u = 42
    · subst hu
      rw [if_pos rfl, hrec (idx + 1) (by omega)]
      simp
    · rw [if_neg hu]
      constructor
      · intro hr; exact absurd hr (by simp)
      · intro hd2; exact absurd (List.cons_eq_cons.mp hd2).1 hu

theorem loop_lit_char (uri : List Nat) (pv c d : Nat) (rest2 : List Nat) (ast : Bool) (w : List Nat)
    (hcpv : c ≠ pv) (hc92 : c ≠ 92) (hwild : ¬(ast = false ∧ c = 42))
    (hrec : ∀ idx2, idx2 ≤ uri.length →
      (ngx_http_pta_check_url_loop uri pv (d :: rest2) idx2 ast = UrlRes.ret 0 ↔
        uri.drop idx2 = w)) :
    ∀ idx, idx ≤ uri.length →
      (ngx_http_pta_check_url_loop uri pv (c :: d :: rest2) idx ast = UrlRes.ret 0 ↔
        uri.drop idx = c :: w) := by
  intro idx hidx
  simp only [ngx_http_pta_check_url_loop]
  rw [if_neg hcpv, if_neg hc92, if_neg hwild]
  cases huri : uri.get? idx with
  | none =>
    have hge : uri.length ≤ idx := List.get?_eq_none.mp huri
    rw [List.drop_eq_nil_of_le hge]
    simp
  | some u =>
    obtain ⟨hlt, hget⟩ := List.get?_eq_some.mp huri
    have hdropc : uri.drop idx = u :: uri.drop (idx + 1) := by
      rw [List.drop_eq_get_cons hlt, hget]
    rw [hdropc]
    dsimp only
    by_cases hu : u = c
    · subst hu
      rw [if_pos rfl, hrec (idx + 1) (by omega)]
      simp
    · rw [if_neg hu]
      constructor
      · intro hr; exact absurd hr (by simp)
      · intro hd2; exact absurd (List.cons_eq_cons.mp hd2).1 hu

/-- C4: the backslash-asterisk pair in the pattern is consumed as a match of a
    literal asterisk against the path and sets the single-shot escape flag; with
    the flag set the loop equals the literal-mode loop, so wildcard semantics
    stays disabled for the remainder of the pattern; consequently the pattern
    backslash-asterisk-literal (with sentinel 1) matches exactly the one path
    with a literal asterisk. -/
theorem C4_escape_disables_wildcard :
    (∀ (uri : List Nat) (pv : Nat) (rest : List Nat) (idx : Nat) (ast : Bool), pv ≠ 92 →
        ngx_http_pta_check_url_loop uri pv (92 :: 42 :: rest) idx ast =
          (match uri.get? idx with
            | none => UrlRes.uriOob
            | some u =>
              if u = 42 then ngx_http_pta_check_url_loop uri pv rest (idx + 1) true
              else UrlRes.ret 1)) ∧
    (∀ (pat uri : List Nat) (pv idx : Nat),
        ngx_http_pta_check_url_loop uri pv pat idx true = litLoop uri pv pat idx) ∧
    (∀ uri : List Nat,
        ngx_http_pta_check_url [47, 97, 47, 92, 42, 108, 105, 116, 101, 114, 97, 108, 1] 1 uri =
            UrlRes.ret 0 ↔
          uri = [47, 97, 47, 42, 108, 105, 116, 101, 114, 97, 108]) := by
  refine ⟨?_, ?_, ?_⟩
  · intro uri pv rest idx ast hpv
    exact loop_escape_step uri pv rest idx ast hpv
  · intro pat uri pv idx
    exact loop_ast_true_eq_lit uri pv pat.length pat le_rfl idx
  · intro uri
    have h0 : (0 : Nat) ≤ uri.length := Nat.zero_le _
    unfold ngx_http_pta_check_url
    rw [if_neg (by norm_num)]
    have hlit : ∀ idx2, idx2 ≤ uri.length →
        (ngx_http_pta_check_url_loop uri 1 [108, 105, 116, 101, 114, 97, 108, 1] idx2 true =
            UrlRes.ret 0 ↔
          uri.drop idx2 = [108, 105, 116, 101, 114, 97, 108]) := by
      intro idx2 h2
      rw [loop_ast_true_eq_lit uri 1 8 [108, 105, 116, 101, 114, 97, 108, 1] (by norm_num) idx2]
      exact litLoop_char uri 1 8 [108, 105, 116, 101, 114, 97, 108, 1] (by norm_num)
        [108, 105, 116, 101, 114, 97, 108] (by decide) idx2 h2
    have h5 := loop_escape_char uri 1 [108, 105, 116, 101, 114, 97, 108, 1] false
      [108, 105, 116, 101, 114, 97, 108] (by norm_num) hlit
    have h6 := loop_lit_char uri 1 47 92 (42 :: [108, 105, 116, 101, 114, 97, 108, 1]) false
      (42 :: [108, 105, 116, 101, 114, 97, 108]) (by norm_num) (by norm_num) (by norm_num) h5
    have h7 := loop_lit_char uri 1 97 47 (92 :: 42 :: [108, 105, 116, 101, 114, 97, 108, 1]) false
      (47 :: 42 :: [108, 105, 116, 101, 114, 97, 108]) (by norm_num) (by norm_num) (by norm_num) h6
    have h8 := loop_lit_char uri 1 47 97
      (47 :: 92 :: 42 :: [108, 105, 116, 101, 114, 97, 108, 1]) false
      (97 :: 47 :: 42 :: [108, 105, 116, 101, 114, 97, 108]) (by norm_num) (by norm_num)
      (by norm_num) h7
    rw [h8 0 h0, List.drop_zero]

theorem C4_escape_disables_wildcard_witness :
    ngx_http_pta_check_url_loop [42] 1 [92, 42, 1] 0 false =
      (match ([42] : List Nat).get? 0 with
        | none => UrlRes.uriOob
        | some u =>
          if u = 42 then ngx_http_pta_check_url_loop [42] 1 [1] 1 true
          else UrlRes.ret 1) ∧
    ngx_http_pta_check_url [47, 97, 47, 92, 42, 108, 105, 116, 101, 114, 97, 108, 1] 1
      [47, 97, 47, 42, 108, 105, 116, 101, 114, 97, 108] = UrlRes.ret 0 :=
  ⟨C4_escape_disables_wildcard.1 [42] 1 [1] 0 false (by norm_num),
   (C4_escape_disables_wildcard.2.2 [47, 97, 47, 42, 108, 105, 116, 101, 114, 97, 108]).mpr rfl⟩

/- ------------------------------------------------------------------ -/
/- C10: the sentinel scans stay inside the decrypted buffer.           -/
/- ------------------------------------------------------------------ -/

theorem getLastD_mem (l : List Nat) (h : l ≠ []) (d : Nat) : l.getLastD d ∈ l := by
  cases l with
  | nil => exact absurd rfl h
  | cons a t =>
    rw [List.getLastD_eq_getLast?]
    rw [List.getLast?_eq_getLast (a :: t) (by simp)]
    exact List.getLast_mem _

theorem getLastD_append_right (l1 l2 : List Nat) (h : l2 ≠ []) (d : Nat) :
    (l1 ++ l2).getLastD d = l2.getLastD d := by
  rw [List.getLastD_eq_getLast?, List.getLastD_eq_getLast?,
    List.getLast?_append_of_ne_nil l1 h]

theorem wildcard_no_patOob (uri sa : List Nat) (pv idx : Nat) (hmem : pv ∈ sa) :
    ngx_http_pta_check_wildcard_url uri sa pv idx ≠ UrlRes.patOob := by
  obtain ⟨k, hk⟩ := sentinelScan_isSome_of_mem hmem
  unfold ngx_http_pta_check_wildcard_url
  rw [hk]
  dsimp only
  by_cases h0 : k = 0
  · simp [h0]
  · rw [if_neg h0]
    split_ifs <;> simp

/-- If the sentinel value occurs somewhere in the remaining pattern buffer and is
    neither the backslash nor the asterisk byte, the matching loop never reads
    past the pattern buffer. -/
theorem loop_no_patOob (uri : List Nat) (pv : Nat) (hpv92 : pv ≠ 92) (hpv42 : pv ≠ 42) :
    ∀ (n : Nat) (pat : List Nat), pat.length ≤ n → pv ∈ pat → ∀ (idx : Nat) (ast : Bool),
      ngx_http_pta_check_url_loop uri pv pat idx ast ≠ UrlRes.patOob := by
  intro n
  induction n with
  | zero =>
    intro pat h hmem idx ast
    have hnil : pat = [] := List.length_eq_zero.mp (by omega)
    subst hnil
    simp at hmem
  | succ n ih =>
    intro pat h hmem idx ast
    match pat with
    | [] => simp at hmem
    | [c] =>
      have hc : c = pv := (List.mem_singleton.mp hmem).symm
      simp only [ngx_http_pta_check_url_loop, if_pos hc]
      split_ifs <;> simp
    | c :: d :: rest2 =>
      by_cases hcpv : c = pv
      · simp only [ngx_http_pta_check_url_loop, if_pos hcpv]
        split_ifs <;> simp
      · have hmem2 : pv ∈ d :: rest2 := by
          rcases List.mem_cons.mp hmem with h1 | h1
          · exact absurd h1.symm hcpv
          · exact h1
        by_cases hc92 : c = 92
        · by_cases hd42 : d = 42
          · have hmem3 : pv ∈ rest2 := by
              rcases List.mem_cons.mp hmem2 with h1 | h1
              · rw [hd42] at h1; exact absurd h1 hpv42
              · exact h1
            simp only [ngx_http_pta_check_url_loop, if_neg hcpv, if_pos hc92, if_pos hd42]
            cases huri : uri.get? idx with
            | none => simp
            | some u =>
              dsimp only
              by_cases hu : u = 42
              · rw [if_pos hu]
                exact ih rest2 (by simp at h ⊢; omega) hmem3 (idx + 1) true
              · rw [if_neg hu]; simp
          · simp only [ngx_http_pta_check_url_loop, if_neg hcpv, if_pos hc92, if_neg hd42]
            cases huri : uri.get? idx with
            | none => simp
            | some u =>
              dsimp only
              by_cases hu : u = 92
              · rw [if_pos hu]
                exact ih (d :: rest2) (by simp at h ⊢; omega) hmem2 (idx + 1) ast
              · rw [if_neg hu]; simp
        · by_cases hwild : ast = false ∧ c = 42
          · simp only [ngx_http_pta_check_url_loop, if_neg hcpv, if_neg hc92, if_pos hwild]
            exact wildcard_no_patOob uri (d :: rest2) pv idx hmem2
          · simp only [ngx_http_pta_check_url_loop, if_neg hcpv, if_neg hc92, if_neg hwild]
            cases huri : uri.get? idx with
            | none => simp
            | some u =>
              dsimp only
              by_cases hu : u = c
              · rw [if_pos hu]
                exact ih (d :: rest2) (by simp at h ⊢; omega) hmem2 (idx + 1) ast
              · rw [if_neg hu]; simp

/-- C10: on every decrypted payload accepted by the integrity check, the URL
    matcher never reads past the decrypted buffer while scanning for the
    sentinel: padding_val is read from the last plaintext byte, so that byte
    itself always equals the sentinel being scanned for, and both the main
    pattern scan and the wildcard-suffix scan stop at or before it. -/
theorem C10_sentinel_scan_in_bounds (p uri : List Nat) (hp : p.length < 2 ^ 64)
    (hcrc : ngx_http_pta_check_crc p = 0) :
    ngx_http_pta_check_url (p.drop 12) (padding_val p) uri ≠ UrlRes.patOob := by
  obtain ⟨h1, h2, h3, -, -⟩ := (check_crc_eq_zero_iff p hp).mp hcrc
  have hne : p.drop 12 ≠ [] := by
    intro hnil
    have := List.drop_eq_nil_iff.mp hnil
    omega
  have hsplit : p.take 12 ++ p.drop 12 = p := List.take_append_drop 12 p
  have heq : padding_val p = (p.drop 12).getLastD 0 := by
    unfold padding_val
    conv_lhs => rw [← hsplit]
    exact getLastD_append_right _ _ hne 0
  have hmem : padding_val p ∈ p.drop 12 := heq ▸ getLastD_mem (p.drop 12) hne 0
  unfold ngx_http_pta_check_url
  rw [if_neg (by omega)]
  exact loop_no_patOob uri (padding_val p) (by omega) (by omega) (p.drop 12).length (p.drop 12)
    le_rfl hmem 0 false

theorem C10_sentinel_scan_in_bounds_witness :
    goodPayload.length < 2 ^ 64 ∧ ngx_http_pta_check_crc goodPayload = 0 ∧
    ngx_http_pta_check_url (goodPayload.drop 12) (padding_val goodPayload) [] ≠ UrlRes.patOob :=
  ⟨by decide, by decide, C10_sentinel_scan_in_bounds goodPayload [] (by decide) (by decide)⟩

/- ------------------------------------------------------------------ -/
/- Hex codec and the decrypt / handler orchestration.                  -/
/- ------------------------------------------------------------------ -/

/-- ngx_http_pta_c2i (lines 284-301): hex digit value of an ASCII byte,
    any other byte leniently maps to 0. -/
def ngx_http_pta_c2i (c : Nat) : Nat :=
  if 48 ≤ c ∧ c ≤ 57 then c - 48
  else if 97 ≤ c ∧ c ≤ 102 then c - 87
  else if 65 ≤ c ∧ c ≤ 70 then c - 55
  else 0

/-- The conversion loop of ngx_http_pta_hex2bin (lines 313-317): len / 2 output
    bytes, high nibble first. -/
def ngx_http_pta_hex2bin : List Nat → List Nat
  | a :: b :: rest => (ngx_http_pta_c2i a * 16 + ngx_http_pta_c2i b) :: ngx_http_pta_hex2bin rest
  | _ => []

/-- The decode stage of ngx_http_pta_build_info on the extracted token string
    (lines 430-454): an odd length is rejected (status 400), and
    ngx_http_pta_hex2bin rejects an empty input (lines 308-311, also status 400);
    otherwise the decoded ciphertext bytes are produced. -/
def buildBin (t : List Nat) : Option (List Nat) :=
  if t.length % 2 ≠ 0 then none
  else if t.length = 0 then none
  else some (ngx_http_pta_hex2bin t)

/-- Result of the two-key loop of ngx_http_pta_decrypt (lines 532-583) for one
    candidate: ok p is a plaintext accepted by ngx_http_pta_check_crc; evpFail
    models an EVP_* failure, which jumps to the fail label (no further key and no
    further candidate); exhausted means both keys decrypted but neither plaintext
    passed the integrity check. -/
inductive KeyLoopRes where
  | ok (p : List Nat)
  | evpFail
  | exhausted
deriving DecidableEq

/-- The two-key loop of ngx_http_pta_decrypt: the first key/iv pair is attempted
    first; on an integrity failure the second pair is attempted; d1 and d2 are
    the plaintexts of the current ciphertext under the two pairs (none = EVP
    failure). -/
def tryKeyPairs (d1 d2 : Option (List Nat)) : KeyLoopRes :=
  match d1 with
  | none => KeyLoopRes.evpFail
  | some p1 =>
    if ngx_http_pta_check_crc p1 = 0 then KeyLoopRes.ok p1
    else
      match d2 with
      | none => KeyLoopRes.evpFail
      | some p2 => if ngx_http_pta_check_crc p2 = 0 then KeyLoopRes.ok p2 else KeyLoopRes.exhausted

/-- Query-string validation: ngx_http_pta_handler composed with
    ngx_http_pta_decrypt in pure query-string mode (no fallback pending).
    tok is the result of ngx_http_pta_build_info via ngx_http_arg: none when the
    pta parameter is absent (status 400).  Status values: some 0 authorized
    (NGX_DECLINED, request proceeds), some 400 malformed, some 403 forbidden,
    some 410 expired; none marks an out-of-bounds uri read in the URL matcher
    (undefined behaviour in C). -/
def validateQs (dec : Bool → List Nat → Option (List Nat)) (now : Int) (uri : List Nat)
    (tok : Option (List Nat)) : Option Nat :=
  match tok with
  | none => some 400
  | some t =>
    match buildBin t with
    | none => some 400
    | some bin =>
      match tryKeyPairs (dec false bin) (dec true bin) with
      | KeyLoopRes.evpFail => some 403
      | KeyLoopRes.exhausted => some 403
      | KeyLoopRes.ok p =>
        if ngx_http_pta_check_deadline now p = 1 then some 410
        else
          match ngx_http_pta_check_url (p.drop 12) (padding_val p) uri with
          | UrlRes.ret c => if c = 0 then some 0 else some 403
          | _ => none

/-- Cookie-mode validation: the composition of ngx_http_pta_handler (lines
    767-812) and ngx_http_pta_decrypt (lines 511-611) on the list of remaining
    cookie candidates.  The again label of ngx_http_pta_decrypt (integrity
    exhaustion on both keys, line 599) and the more label of the handler (expiry
    line 788, URL mismatch line 808) all continue with the next candidate, which
    is the tail of the list; when no candidate remains the original failure
    status is returned (403 at the fail label, 410 for expiry, 403 for URL
    mismatch); an empty candidate list is status 400 (lines 363-368 and 417-421);
    a decode failure of the current candidate is status 400 immediately, with no
    further candidate probed. -/
def validateCookie (dec : Bool → List Nat → Option (List Nat)) (now : Int) (uri : List Nat) :
    List (List Nat) → Option Nat
  | [] => some 400
  | t :: rest =>
    match buildBin t with
    | none => some 400
    | some bin =>
      match tryKeyPairs (dec false bin) (dec true bin) with
      | KeyLoopRes.evpFail => some 403
      | KeyLoopRes.exhausted =>
        match rest with
        | [] => some 403
        | _ :: _ => validateCookie dec now uri rest
      | KeyLoopRes.ok p =>
        if ngx_http_pta_check_deadline now p = 1 then
          match rest with
          | [] => some 410
          | _ :: _ => validateCookie dec now uri rest
        else
          match ngx_http_pta_check_url (p.drop 12) (padding_val p) uri with
          | UrlRes.ret c =>
            if c = 0 then some 0
            else
              match rest with
              | [] => some 403
              | _ :: _ => validateCookie dec now uri rest
          | _ => none

/-- The pta_auth_method configuration values: qs, cookie, both, or any other
    bitmask value (the default case of ngx_http_pta_init_auth_type). -/
inductive AuthMethod where
  | qs
  | cookie
  | both
  | other
deriving DecidableEq

/-- The two mutable orchestration fields of ngx_http_pta_info_t that drive the
    auth-method fallback: auth_type (true = NGX_IIJPTA_AUTH_QS, false =
    NGX_IIJPTA_AUTH_COOKIE) and need_fallback_cookie. -/
structure OrchState where
  authQs : Bool
  needFallback : Bool
deriving DecidableEq

/-- ngx_http_pta_init_auth_type (lines 463-494): qs and cookie select themselves;
    both selects query string first and arms the one-shot cookie fallback; any
    other value defaults to query string (need_fallback_cookie stays 0 from the
    ngx_memzero of line 764). -/
def ngx_http_pta_init_auth_type : AuthMethod → OrchState
  | AuthMethod.qs => ⟨true, false⟩
  | AuthMethod.cookie => ⟨false, false⟩
  | AuthMethod.both => ⟨true, true⟩
  | AuthMethod.other => ⟨true, false⟩

/-- Result of the dispatch part of ngx_http_pta_build_info (lines 374-428). -/
inductive BuildRes where
  | fallback
  | err (code : Nat)
  | tok (t : List Nat)
deriving DecidableEq

/-- The dispatch part of ngx_http_pta_build_info: in query-string mode the pta
    query parameter is looked up; when it is entirely absent and the fallback is
    armed, NGX_HTTP_PTA_FALLBACK is returned, otherwise 400; in cookie mode the
    candidate at the current index is taken, 400 when exhausted or no cookie
    value was found. -/
def ngx_http_pta_build_info_dispatch (qsTok : Option (List Nat)) (cands : List (List Nat))
    (idx : Nat) (st : OrchState) : BuildRes :=
  if st.authQs then
    match qsTok with
    | some t => BuildRes.tok t
    | none => if st.needFallback then BuildRes.fallback else BuildRes.err 400
  else
    match cands.get? idx with
    | some t => BuildRes.tok t
    | none => BuildRes.err 400

/-- The fallback handling of ngx_http_pta_decrypt lines 513-518: on
    NGX_HTTP_PTA_FALLBACK the flag is cleared and auth_type becomes cookie,
    then the again label re-runs ngx_http_pta_build_info. -/
def fallbackSwitch (_st : OrchState) : OrchState := ⟨false, false⟩


/- ------------------------------------------------------------------ -/
/- Cookie header parsing (ngx_http_pta_parse_cookie_header).           -/
/- ------------------------------------------------------------------ -/

/-- ngx_strncasecmp prefix test of the cookie name against the remaining header
    bytes (line 198).  Header values are NUL-terminated in nginx, so running out
    of header bytes compares a name byte against 0 and mismatches; a matching 0
    byte would stop with success, as in ngx_strncasecmp. -/
def nameMatch : List Nat → List Nat → Bool
  | [], _ => true
  | _ :: _, [] => false
  | a :: t1, b :: t2 =>
    if lowc a = lowc b then (if lowc a = 0 then true else nameMatch t1 t2) else false

/-- The space-skipping loops of ngx_http_pta_parse_cookie_header
    (lines 203-208, 215-219, 243-247). -/
def skipSpaces (l : List Nat) : List Nat := l.dropWhile (fun c => c = 32)

/-- The skip branch of ngx_http_pta_parse_cookie_header (lines 232-241):
    consume bytes up to and including the next semicolon. -/
def dropSemi : List Nat → List Nat
  | [] => []
  | c :: rest => if c = 59 then rest else dropSemi rest

theorem skipSpaces_length_le (l : List Nat) : (skipSpaces l).length ≤ l.length := by
  induction l with
  | nil => simp [skipSpaces]
  | cons c rest ih =>
    unfold skipSpaces at ih ⊢
    rw [List.dropWhile_cons]
    split_ifs
    · simp only [List.length_cons]; omega
    · simp

theorem dropSemi_length_le : ∀ l : List Nat, (dropSemi l).length ≤ l.length := by
  intro l
  induction l with
  | nil => simp [dropSemi]
  | cons c rest ih =>
    unfold dropSemi
    by_cases hc : c = 59
    · rw [if_pos hc]; simp
    · rw [if_neg hc]; simp; omega

theorem dropSemi_length_lt : ∀ l : List Nat, l ≠ [] → (dropSemi l).length < l.length := by
  intro l h
  cases l with
  | nil => exact absurd rfl h
  | cons c rest =>
    unfold dropSemi
    by_cases hc : c = 59
    · rw [if_pos hc]; simp
    · rw [if_neg hc]
      have := dropSemi_length_le rest
      simp
      omega

/-- The scanning loop of ngx_http_pta_parse_cookie_header over one header value
    (lines 196-248), with start as the remaining byte list s.  On a name match
    the name is skipped, spaces are skipped, an equals sign is consumed, spaces
    are skipped, and the value up to the next semicolon is pushed; the loop then
    continues from the START OF THE VALUE (the C code does not advance start past
    the value before continuing).  Any failure goes to the skip branch, which
    consumes up to and including the next semicolon and then spaces. -/
def parseCookieLoop (name : List Nat) (s : List Nat) : List (List Nat) :=
  if hs : s = [] then []
  else if nameMatch name s then
    if h1 : skipSpaces (s.drop name.length) = [] then []
    else if (skipSpaces (s.drop name.length)).headD 0 = 61 then
      (skipSpaces (skipSpaces (s.drop name.length)).tail).takeWhile (fun b => b ≠ 59) ::
        parseCookieLoop name (skipSpaces (skipSpaces (s.drop name.length)).tail)
    else
      parseCookieLoop name (skipSpaces (dropSemi (skipSpaces (s.drop name.length)).tail))
  else
    parseCookieLoop name (skipSpaces (dropSemi s))
termination_by s.length
decreasing_by
  · have a1 := skipSpaces_length_le (skipSpaces (s.drop name.length)).tail
    have a2 : (skipSpaces (s.drop name.length)).tail.length =
        (skipSpaces (s.drop name.length)).length - 1 := List.length_tail _
    have a3 := skipSpaces_length_le (s.drop name.length)
    have a4 : (s.drop name.length).length ≤ s.length := by
      rw [List.length_drop]; omega
    have a5 : 1 ≤ (skipSpaces (s.drop name.length)).length := by
      have := List.length_pos.mpr h1
      omega
    have a6 : 1 ≤ s.length := by
      have := List.length_pos.mpr hs
      omega
    omega
  · have a0 := dropSemi_length_le (skipSpaces (s.drop name.length)).tail
    have a1 := skipSpaces_length_le (dropSemi (skipSpaces (s.drop name.length)).tail)
    have a2 : (skipSpaces (s.drop name.length)).tail.length =
        (skipSpaces (s.drop name.length)).length - 1 := List.length_tail _
    have a3 := skipSpaces_length_le (s.drop name.length)
    have a4 : (s.drop name.length).length ≤ s.length := by
      rw [List.length_drop]; omega
    have a5 : 1 ≤ (skipSpaces (s.drop name.length)).length := by
      have := List.length_pos.mpr h1
      omega
    have a6 : 1 ≤ s.length := by
      have := List.length_pos.mpr hs
      omega
    omega
  · have b1 := dropSemi_length_lt s hs
    have b2 := skipSpaces_length_le (dropSemi s)
    omega

/-- The cookie name pta. -/
def ptaName : List Nat := [112, 116, 97]

/-- ngx_http_pta_parse_cookie_header over the Cookie header values of one
    request, in header order; headers shorter than the name are skipped by the
    guard of lines 187-190. -/
def ngx_http_pta_parse_cookie_header (name : List Nat) : List (List Nat) → List (List Nat)
  | [] => []
  | h :: rest =>
    (if name.length ≤ h.length then parseCookieLoop name h else []) ++
      ngx_http_pta_parse_cookie_header name rest

/-- The full per-request validation: ngx_http_pta_init_auth_type followed by the
    handler.  With both auth methods enabled the query string is attempted first;
    the NGX_HTTP_PTA_FALLBACK path (query parameter entirely absent) switches to
    cookie mode once and for all; qs-only mode and the default both run the
    query-string path with no fallback armed. -/
def ptaValidate (dec : Bool → List Nat → Option (List Nat)) (now : Int) (uri : List Nat)
    (m : AuthMethod) (qsTok : Option (List Nat)) (cookieHeaders : List (List Nat)) : Option Nat :=
  match m with
  | AuthMethod.cookie =>
    validateCookie dec now uri (ngx_http_pta_parse_cookie_header ptaName cookieHeaders)
  | AuthMethod.both =>
    match qsTok with
    | some t => validateQs dec now uri (some t)
    | none => validateCookie dec now uri (ngx_http_pta_parse_cookie_header ptaName cookieHeaders)
  | _ => validateQs dec now uri qsTok

/- ------------------------------------------------------------------ -/
/- Claims C6 - C9 about the orchestration.                             -/
/- ------------------------------------------------------------------ -/

/-- C6: the two-key loop attempts the first (primary) key/iv pair first and, on
    an integrity failure under it, attempts the second (secondary) pair before
    giving up; consequently a token whose decryption under the secondary key
    passes the integrity check, the deadline check and the URL check validates
    successfully even though the primary key fails to produce a matching
    checksum. -/
theorem C6_key_rotation :
    (∀ (p1 : List Nat) (d2 : Option (List Nat)), ngx_http_pta_check_crc p1 = 0 →
        tryKeyPairs (some p1) d2 = KeyLoopRes.ok p1) ∧
    (∀ p1 p2 : List Nat, ngx_http_pta_check_crc p1 ≠ 0 → ngx_http_pta_check_crc p2 = 0 →
        tryKeyPairs (some p1) (some p2) = KeyLoopRes.ok p2) ∧
    (∀ (dec : Bool → List Nat → Option (List Nat)) (now : Int) (uri t bin p1 p2 : List Nat),
        buildBin t = some bin →
        dec false bin = some p1 → ngx_http_pta_check_crc p1 ≠ 0 →
        dec true bin = some p2 → ngx_http_pta_check_crc p2 = 0 →
        ngx_http_pta_check_deadline now p2 = 0 →
        ngx_http_pta_check_url (p2.drop 12) (padding_val p2) uri = UrlRes.ret 0 →
        validateQs dec now uri (some t) = some 0) := by
  refine ⟨?_, ?_, ?_⟩
  · intro p1 d2 h1
    simp only [tryKeyPairs]
    rw [if_pos h1]
  · intro p1 p2 h1 h2
    simp only [tryKeyPairs]
    rw [if_neg h1]
    rw [if_pos h2]
  · intro dec now uri t bin p1 p2 hb hd1 hc1 hd2 hc2 hdead hurl
    have hk : tryKeyPairs (dec false bin) (dec true bin) = KeyLoopRes.ok p2 := by
      rw [hd1, hd2]
      simp only [tryKeyPairs]
      rw [if_neg hc1]
      rw [if_pos hc2]
    simp only [validateQs, hb, hk, hdead, hurl]
    norm_num

/-- A concrete payload with url bytes for the path of two bytes slash a,
    deadline bytes all zero, padding value 2. -/
def goodUrlPayload : List Nat :=
  beBytes 4 (ngx_crc32_long ([0, 0, 0, 0, 0, 0, 0, 0] ++ [47, 97])) ++
    ([0, 0, 0, 0, 0, 0, 0, 0] ++ [47, 97]) ++ [2, 2]

/-- A plaintext rejected by the integrity check: all zero, so padding_val 0. -/
def badPayload : List Nat := List.replicate 16 0

def decW : Bool → List Nat → Option (List Nat) :=
  fun k _ => if k then some goodUrlPayload else some badPayload

theorem C6_key_rotation_witness :
    buildBin [48, 50] = some [2] ∧ ngx_http_pta_check_crc badPayload ≠ 0 ∧
    ngx_http_pta_check_crc goodUrlPayload = 0 ∧
    validateQs decW 0 [47, 97] (some [48, 50]) = some 0 :=
  ⟨by decide, by decide, by decide,
    C6_key_rotation.2.2 decW 0 [47, 97] [48, 50] [2] badPayload goodUrlPayload (by decide) rfl
      (by decide) rfl (by decide) (by decide) (by decide)⟩

/-- C7: with both auth methods enabled, the initial state is query-string mode
    with the one-shot cookie fallback armed; the dispatch falls back exactly when
    the pta query parameter is entirely absent; the fallback transition lands in
    cookie mode with the flag cleared; no state with the flag cleared and no state
    already in cookie mode can fall back again (the switch happens at most once
    and the request never returns to query-string mode); on the flattened
    validation the two cases of both-enabled dispatch accordingly. -/
theorem C7_qs_cookie_fallback :
    ngx_http_pta_init_auth_type AuthMethod.both = ⟨true, true⟩ ∧
    (∀ (qsTok : Option (List Nat)) (cands : List (List Nat)) (idx : Nat),
        ngx_http_pta_build_info_dispatch qsTok cands idx
            (ngx_http_pta_init_auth_type AuthMethod.both) = BuildRes.fallback ↔ qsTok = none) ∧
    (∀ st : OrchState,
        (fallbackSwitch st).authQs = false ∧ (fallbackSwitch st).needFallback = false) ∧
    (∀ (st : OrchState) (qsTok : Option (List Nat)) (cands : List (List Nat)) (idx : Nat),
        st.needFallback = false →
        ngx_http_pta_build_info_dispatch qsTok cands idx st ≠ BuildRes.fallback) ∧
    (∀ (st : OrchState) (qsTok : Option (List Nat)) (cands : List (List Nat)) (idx : Nat),
        st.authQs = false →
        ngx_http_pta_build_info_dispatch qsTok cands idx st ≠ BuildRes.fallback) ∧
    (∀ (dec : Bool → List Nat → Option (List Nat)) (now : Int) (uri t : List Nat)
        (headers : List (List Nat)),
        ptaValidate dec now uri AuthMethod.both (some t) headers =
            validateQs dec now uri (some t) ∧
        ptaValidate dec now uri AuthMethod.both none headers =
          validateCookie dec now uri (ngx_http_pta_parse_cookie_header ptaName headers)) := by
  refine ⟨rfl, ?_, ?_, ?_, ?_, ?_⟩
  · intro qsTok cands idx
    cases qsTok with
    | none => simp [ngx_http_pta_build_info_dispatch, ngx_http_pta_init_auth_type]
    | some t => simp [ngx_http_pta_build_info_dispatch, ngx_http_pta_init_auth_type]
  · intro st
    exact ⟨rfl, rfl⟩
  · intro st qsTok cands idx h
    unfold ngx_http_pta_build_info_dispatch
    by_cases ha : st.authQs
    · rw [if_pos ha]
      cases qsTok with
      | none => simp [h]
      | some t => simp
    · rw [if_neg ha]
      cases cands.get? idx <;> simp
  · intro st qsTok cands idx h
    unfold ngx_http_pta_build_info_dispatch
    rw [if_neg (by simp [h])]
    cases cands.get? idx <;> simp
  · intro dec now uri t headers
    exact ⟨rfl, rfl⟩

theorem C7_qs_cookie_fallback_witness :
    ngx_http_pta_build_info_dispatch none [] 0 (ngx_http_pta_init_auth_type AuthMethod.both) =
      BuildRes.fallback ∧
    ngx_http_pta_build_info_dispatch none [] 0 ⟨true, false⟩ ≠ BuildRes.fallback :=
  ⟨(C7_qs_cookie_fallback.2.1 none [] 0).mpr rfl,
   C7_qs_cookie_fallback.2.2.2.1 ⟨true, false⟩ none [] 0 rfl⟩

/-- C8: cookie candidates are extracted in header-then-occurrence order; in
    cookie mode the candidates are attempted in list order: an
    integrity-exhausted candidate, an expired candidate and a URL-mismatching
    candidate each advance to the next candidate, validation succeeds as soon as
    one candidate passes every check, and exhausting all candidates is a final
    authorization failure (403 for integrity exhaustion). -/
theorem C8_cookie_candidate_order :
    ngx_http_pta_parse_cookie_header ptaName
        [[112, 116, 97, 61, 65, 59, 32, 112, 116, 97, 61, 66], [112, 116, 97, 61, 67]] =
      [[65], [66], [67]] ∧
    (∀ (dec : Bool → List Nat → Option (List Nat)) (now : Int)
        (uri t1 t2 t3 bin1 bin2 bin3 p2 p3 : List Nat),
        buildBin t1 = some bin1 →
        tryKeyPairs (dec false bin1) (dec true bin1) = KeyLoopRes.exhausted →
        buildBin t2 = some bin2 →
        tryKeyPairs (dec false bin2) (dec true bin2) = KeyLoopRes.ok p2 →
        ngx_http_pta_check_deadline now p2 = 1 →
        buildBin t3 = some bin3 →
        tryKeyPairs (dec false bin3) (dec true bin3) = KeyLoopRes.ok p3 →
        ngx_http_pta_check_deadline now p3 = 0 →
        ngx_http_pta_check_url (p3.drop 12) (padding_val p3) uri = UrlRes.ret 0 →
        validateCookie dec now uri [t1, t2, t3] = some 0) ∧
    (∀ (dec : Bool → List Nat → Option (List Nat)) (now : Int) (uri t bin p : List Nat)
        (rest : List (List Nat)),
        buildBin t = some bin →
        tryKeyPairs (dec false bin) (dec true bin) = KeyLoopRes.ok p →
        ngx_http_pta_check_deadline now p = 0 →
        ngx_http_pta_check_url (p.drop 12) (padding_val p) uri = UrlRes.ret 0 →
        validateCookie dec now uri (t :: rest) = some 0) ∧
    (∀ (dec : Bool → List Nat → Option (List Nat)) (now : Int) (uri t bin p r : List Nat)
        (rs : List (List Nat)),
        buildBin t = some bin →
        tryKeyPairs (dec false bin) (dec true bin) = KeyLoopRes.ok p →
        ngx_http_pta_check_deadline now p = 0 →
        ngx_http_pta_check_url (p.drop 12) (padding_val p) uri = UrlRes.ret 1 →
        validateCookie dec now uri (t :: r :: rs) = validateCookie dec now uri (r :: rs)) ∧
    (∀ (dec : Bool → List Nat → Option (List Nat)) (now : Int) (uri t1 t2 bin1 bin2 : List Nat),
        buildBin t1 = some bin1 →
        tryKeyPairs (dec false bin1) (dec true bin1) = KeyLoopRes.exhausted →
        buildBin t2 = some bin2 →
        tryKeyPairs (dec false bin2) (dec true bin2) = KeyLoopRes.exhausted →
        validateCookie dec now uri [t1, t2] = some 403) := by
  refine ⟨?_, ?_, ?_, ?_, ?_⟩
  · simp [ngx_http_pta_parse_cookie_header, parseCookieLoop, nameMatch, lowc, skipSpaces,
      dropSemi, ptaName]
  · intro dec now uri t1 t2 t3 bin1 bin2 bin3 p2 p3 hb1 hk1 hb2 hk2 hd2 hb3 hk3 hd3 hu3
    simp [validateCookie, hb1, hk1, hb2, hk2, hd2, hb3, hk3, hd3, hu3]
  · intro dec now uri t bin p rest hb hk hd hu
    cases rest with
    | nil => simp [validateCookie, hb, hk, hd, hu]
    | cons r rs => simp [validateCookie, hb, hk, hd, hu]
  · intro dec now uri t bin p r rs hb hk hd hu
    simp [validateCookie, hb, hk, hd, hu]
  · intro dec now uri t1 t2 bin1 bin2 hb1 hk1 hb2 hk2
    simp [validateCookie, hb1, hk1, hb2, hk2]

/-- Same as goodUrlPayload but with deadline 100. -/
def goodUrlPayload100 : List Nat :=
  beBytes 4 (ngx_crc32_long (beBytes 8 100 ++ [47, 97])) ++ (beBytes 8 100 ++ [47, 97]) ++ [2, 2]

def decW8 : Bool → List Nat → Option (List Nat) :=
  fun _ bin =>
    if bin = [2] then some goodUrlPayload100
    else if bin = [1] then some goodUrlPayload
    else some badPayload

theorem C8_cookie_candidate_order_witness :
    tryKeyPairs (decW8 false [0]) (decW8 true [0]) = KeyLoopRes.exhausted ∧
    ngx_http_pta_check_deadline 1 goodUrlPayload = 1 ∧
    ngx_http_pta_check_deadline 1 goodUrlPayload100 = 0 ∧
    validateCookie decW8 1 [47, 97] [[48, 48], [48, 49], [48, 50]] = some 0 :=
  ⟨by decide, by decide, by decide,
    C8_cookie_candidate_order.2.1 decW8 1 [47, 97] [48, 48] [48, 49] [48, 50] [0] [1] [2]
      goodUrlPayload goodUrlPayload100 (by decide) (by decide) (by decide) (by decide) (by decide)
      (by decide) (by decide) (by decide) (by decide)⟩

/-- C9: a candidate token whose hex string has odd length is a malformed-request
    outcome (status 400), both in query-string mode and in cookie mode; in cookie
    mode the decode failure does not advance to any further candidate, whatever
    the remaining candidates are. -/
theorem C9_odd_hex_is_malformed :
    ∀ (dec : Bool → List Nat → Option (List Nat)) (now : Int) (uri t : List Nat)
      (rest : List (List Nat)), t.length % 2 = 1 →
      validateQs dec now uri (some t) = some 400 ∧
      validateCookie dec now uri (t :: rest) = some 400 := by
  intro dec now uri t rest h
  have hb : buildBin t = none := by
    unfold buildBin
    rw [if_pos (by omega)]
  constructor
  · simp [validateQs, hb]
  · simp [validateCookie, hb]

theorem C9_odd_hex_is_malformed_witness :
    validateQs (fun _ _ => none) 0 [] (some [48]) = some 400 ∧
    validateCookie (fun _ _ => none) 0 [] ([48] :: [[48, 48]]) = some 400 :=
  C9_odd_hex_is_malformed (fun _ _ => none) 0 [] [48] [[48, 48]] (by decide)
